import Mathlib

/-!
Verification development for the `meets` mesh video-chat application:
a shallow embedding of the signaling server (`server.js`) and of the
client room page (`src/app/room/[roomId]/page.tsx`), together with
theorems settling the specified behavioural claims.

Conventions of the embedding:
* socket ids, user ids, room ids and display names are `String`s;
* `Date.now()` timestamps and virtual clock instants are `Nat`
  milliseconds;
* a signaling payload object is modelled by `SignalData`, where the
  JavaScript property-presence test `'candidate' in signal` becomes
  `Option.isSome` of the `candidate` field;
* socket.io emissions are collected into explicit lists of
  `(Target, ServerMsg)` pairs instead of being side effects.
-/

/-- A simple-peer signal payload. The JavaScript objects carry either a
`candidate` property (trickled ICE candidate) or an `sdp`/`type` body
(offer or answer); property presence is modelled with `Option`. -/
structure SignalData where
  candidate : Option String
  sdp : Option String
  deriving Repr, DecidableEq

/-- The state of one simple-peer instance as far as the claims observe
it: whether it was constructed with `initiator: true`, and the list of
inbound payloads fed to it through `.signal(...)`, in order. -/
structure PeerInstance where
  initiator : Bool
  signals : List SignalData
  deriving Repr, DecidableEq

/-- The client's per-remote record (`interface PeerRef` in
`page.tsx`): remote socket id, the simple-peer instance, the display
name, the attached remote stream (modelled by an id), and the remote
mute / video-off flags received via `peer-state-changed`. -/
structure PeerRef where
  peerId : String
  peer : PeerInstance
  userName : Option String
  stream : Option Nat
  muted : Option Bool
  videoOff : Option Bool
  deriving Repr, DecidableEq

/-! ## Server (`server.js`) -/

/-- The hard-coded access whitelist in `server.js`. -/
def WHITELIST : List String := ["admin", "user1", "user2", "alice", "bob"]

/-- Addressing of a socket.io emission: `reply` is `socket.emit(...)`
back to the connected socket itself, `toRoomExcept room sender` is
`socket.to(room).emit(...)`, which reaches every socket in `room`
except the sender (a socket id is also a room containing only that
socket, so addressed relays use the same form). -/
inductive Target where
  | reply (socketId : String)
  | toRoomExcept (roomId : String) (senderId : String)
  deriving Repr, DecidableEq

/-- The server-to-client messages relevant to the claims. -/
inductive ServerMsg where
  | errorMsg (reason : String)
  | userConnected (userId : String) (userName : String)
  | userDisconnected (userId : String)
  | offerMsg (offer : SignalData) (from_ : String) (userName : String)
  | answerMsg (answer : SignalData) (from_ : String) (userName : String)
  | iceMsg (candidate : SignalData) (from_ : String)
  | stateChangedMsg (userId : String) (muted : Bool) (videoOff : Bool)
  deriving Repr, DecidableEq

/-- Server-side mutable state: the `userNames` map
(`socket.id -> userName`, an insert-or-overwrite map) and room
membership as recorded by `socket.join(roomId)`, as a list of
`(socketId, roomId)` pairs. -/
structure ServerState where
  userNames : List (String × String)
  rooms : List (String × String)
  deriving Repr, DecidableEq

/-- `Map.prototype.set` on an association list: overwrite the entry
for `k` if present, otherwise append a new one. -/
def mapSet (m : List (String × String)) (k v : String) : List (String × String) :=
  if m.any (fun e => e.1 == k) then
    m.map (fun e => if e.1 == k then (k, v) else e)
  else
    m ++ [(k, v)]

/-- The `join-room` handler of `server.js`: if the display name is not
whitelisted, emit `error` back to the requester and stop; otherwise
record the name in `userNames`, join the room, and broadcast
`user-connected` to the other room members. (The disconnect hook it
also registers is not part of the joined-state transition.) -/
def joinRoom (st : ServerState) (socketId roomId userId userName : String) :
    ServerState × List (Target × ServerMsg) :=
  if ¬ WHITELIST.contains userName then
    (st, [(Target.reply socketId, ServerMsg.errorMsg "User not whitelisted")])
  else
    ({ userNames := mapSet st.userNames socketId userName,
       rooms := st.rooms ++ [(socketId, roomId)] },
     [(Target.toRoomExcept roomId socketId, ServerMsg.userConnected userId userName)])

/-- The `offer` relay of `server.js`: look the sender up in
`userNames`, defaulting to `"Participant"` (`|| "Participant"`), and
forward the offer to `data.to` stamped with `from` and the name. -/
def relayOffer (st : ServerState) (senderId : String) (offer : SignalData) (toId : String) :
    List (Target × ServerMsg) :=
  let senderName := (st.userNames.lookup senderId).getD "Participant"
  [(Target.toRoomExcept toId senderId, ServerMsg.offerMsg offer senderId senderName)]

/-- The `answer` relay of `server.js`, exactly parallel to the offer
relay. -/
def relayAnswer (st : ServerState) (senderId : String) (answer : SignalData) (toId : String) :
    List (Target × ServerMsg) :=
  let senderName := (st.userNames.lookup senderId).getD "Participant"
  [(Target.toRoomExcept toId senderId, ServerMsg.answerMsg answer senderId senderName)]

/-- The `ice-candidate` relay of `server.js`: forward with `from`
only, no display name. -/
def relayIceCandidate (senderId : String) (candidate : SignalData) (toId : String) :
    List (Target × ServerMsg) :=
  [(Target.toRoomExcept toId senderId, ServerMsg.iceMsg candidate senderId)]

/-- The `peer-state-changed` relay of `server.js`: rebroadcast the
flags verbatim to the other members of the room. -/
def relayPeerStateChanged (senderId : String) (roomId userId : String)
    (muted videoOff : Bool) : List (Target × ServerMsg) :=
  [(Target.toRoomExcept roomId senderId, ServerMsg.stateChangedMsg userId muted videoOff)]

/-! ## Client peer set manager (`page.tsx` socket handlers) -/

/-- `createPeer` constructs an initiator simple-peer instance; no
inbound signal has been fed to it yet. -/
def createPeerInstance : PeerInstance :=
  { initiator := true, signals := [] }

/-- `addPeer` constructs a responder simple-peer instance and
immediately feeds it the inbound offer (`peer.signal(incomingSignal)`). -/
def addPeerInstance (incomingSignal : SignalData) : PeerInstance :=
  { initiator := false, signals := [incomingSignal] }

/-- The `user-connected` handler: if a peer entry for `userId` already
exists the event is ignored; otherwise an initiator link is created
and appended with the broadcast display name. -/
def handleUserConnected (ps : List PeerRef) (userId remoteUserName : String) :
    List PeerRef :=
  if ps.any (fun p => p.peerId == userId) then ps
  else
    ps ++ [{ peerId := userId, peer := createPeerInstance,
             userName := some remoteUserName, stream := none,
             muted := none, videoOff := none }]

/-- The `offer` handler: if a peer entry for `payload.from` already
exists the event is ignored; otherwise a responder link is created
(fed the offer immediately) and appended, its name defaulting to
`"Participant"` when the payload carried none. -/
def handleOfferEvent (ps : List PeerRef) (from_ : String) (offer : SignalData)
    (payloadUserName : Option String) : List PeerRef :=
  if ps.any (fun p => p.peerId == from_) then ps
  else
    ps ++ [{ peerId := from_, peer := addPeerInstance offer,
             userName := some (payloadUserName.getD "Participant"), stream := none,
             muted := none, videoOff := none }]

/-- The `ice-candidate` handler: find the first peer entry for
`payload.from` and feed the candidate to its simple-peer instance; if
none exists, do nothing. -/
def handleIceCandidate : List PeerRef → String → SignalData → List PeerRef
  | [], _, _ => []
  | p :: rest, from_, c =>
    if p.peerId == from_ then
      { p with peer := { p.peer with signals := p.peer.signals ++ [c] } } :: rest
    else
      p :: handleIceCandidate rest from_ c

/-- The `peer-state-changed` handler: if a peer entry for
`data.userId` exists, update the `muted`/`videoOff` flags of the
matching entries (`setPeers(prev.map ...)`); otherwise do nothing. -/
def handlePeerStateChanged (ps : List PeerRef) (userId : String)
    (muted videoOff : Bool) : List PeerRef :=
  if ps.any (fun p => p.peerId == userId) then
    ps.map (fun p =>
      if p.peerId == userId then
        { p with muted := some muted, videoOff := some videoOff }
      else p)
  else ps

/-! ## Outbound signal classification (`createPeer` / `addPeer`) -/

/-- An outbound signaling emission from a peer's `signal` event
handler: one of the three socket events `ice-candidate`, `offer`,
`answer`, with its payload and addressee. -/
inductive OutboundMsg where
  | iceCandidate (candidate : SignalData) (toId : String)
  | offerOut (offer : SignalData) (toId : String)
  | answerOut (answer : SignalData) (toId : String)
  deriving Repr, DecidableEq

/-- Whether an outbound emission is the `ice-candidate` variant. -/
def OutboundMsg.isIce : OutboundMsg → Bool
  | .iceCandidate _ _ => true
  | _ => false

/-- The `signal` handler installed by `createPeer` (initiator side):
`if ('candidate' in signal)` emit `ice-candidate`, else emit `offer`,
both addressed to `userToSignal`. -/
def createPeerSignalHandler (userToSignal : String) (signal : SignalData) :
    OutboundMsg :=
  if signal.candidate.isSome then
    OutboundMsg.iceCandidate signal userToSignal
  else
    OutboundMsg.offerOut signal userToSignal

/-- The `signal` handler installed by `addPeer` (responder side):
`if ('candidate' in signal)` emit `ice-candidate`, else emit `answer`,
both addressed to `callerID`. -/
def addPeerSignalHandler (callerID : String) (signal : SignalData) :
    OutboundMsg :=
  if signal.candidate.isSome then
    OutboundMsg.iceCandidate signal callerID
  else
    OutboundMsg.answerOut signal callerID

/-! ## Media health monitor (`checkMediaHealth`) -/

/-- `SILENCE_THRESHOLD` in `page.tsx`. -/
def SILENCE_THRESHOLD : Nat := 10

/-- `SILENCE_DURATION` in `page.tsx` (milliseconds). -/
def SILENCE_DURATION : Nat := 10000

/-- The monitor state the audio health check reads and writes: the
`silenceStart` timestamp (initialised to `Date.now()` when the effect
starts), the `restartingMode` flag (collapsed to a Bool: a restart is
in flight), and a counter of `restartMedia("audio")` invocations. -/
structure MonitorState where
  silenceStart : Nat
  restarting : Bool
  restartCount : Nat
  deriving Repr, DecidableEq

/-- One audio-health tick of `checkMediaHealth` at time `now` with
measured average energy `avg`: skipped entirely while a restart is in
flight; skipped when muted; below-threshold energy triggers a restart
once strictly more than `SILENCE_DURATION` ms have elapsed since
`silenceStart` (and resets `silenceStart`); at-or-above-threshold
energy resets `silenceStart`. -/
def checkMediaHealthAudio (st : MonitorState) (now avg : Nat) (muted : Bool) :
    MonitorState :=
  if st.restarting then st
  else if muted then st
  else if avg < SILENCE_THRESHOLD then
    if now - st.silenceStart > SILENCE_DURATION then
      { silenceStart := now, restarting := true,
        restartCount := st.restartCount + 1 }
    else st
  else { st with silenceStart := now }

/-- A run of audio-health ticks over a time-ordered list of
`(now, avg)` samples, with a fixed mute flag. -/
def runMonitor (st : MonitorState) (muted : Bool) (samples : List (Nat × Nat)) :
    MonitorState :=
  samples.foldl (fun s p => checkMediaHealthAudio s p.1 p.2 muted) st

/-- Completion of a restart at time `now`: `setRestartingMode(null)`
re-runs the monitor effect, which re-initialises
`silenceStart = Date.now()` — the silence interval is measured from
the completion time onward. -/
def restartComplete (st : MonitorState) (now : Nat) : MonitorState :=
  { st with restarting := false, silenceStart := now }

/-! ## Local media restart (`restartMedia`) -/

/-- The two media kinds `restartMedia` accepts. -/
inductive MediaKind where
  | audio
  | video
  deriving Repr, DecidableEq

/-- The local media state `restartMedia` operates on: the shared
`restartingMode` flag, whether `streamRef.current` is non-null,
generation counters for the audio/video track (bumped when a fresh
track is spliced in), the fatal error banner, and a counter of
`getUserMedia` acquisition calls. -/
structure LocalMediaState where
  restartingMode : Option MediaKind
  hasStream : Bool
  audioGen : Nat
  videoGen : Nat
  fatalError : Option String
  acquisitionCalls : Nat
  deriving Repr, DecidableEq

/-- The entry guard and flag-set of `restartMedia`: return unchanged
when a restart is already in flight or there is no local stream,
otherwise set `restartingMode` before any track work. -/
def restartBegin (st : LocalMediaState) (kind : MediaKind) : LocalMediaState :=
  if st.restartingMode.isSome || !st.hasStream then st
  else { st with restartingMode := some kind }

/-- The `try` body of `restartMedia`: stop the old tracks and acquire a
fresh one via `getUserMedia` (`ok` tells whether acquisition
succeeded); on success the fresh track is spliced into the local
stream and hot-swapped into every live peer. -/
def restartWork (st : LocalMediaState) (kind : MediaKind) (ok : Bool) :
    LocalMediaState :=
  let st1 := { st with acquisitionCalls := st.acquisitionCalls + 1 }
  if ok then
    match kind with
    | .audio => { st1 with audioGen := st1.audioGen + 1 }
    | .video => { st1 with videoGen := st1.videoGen + 1 }
  else st1

/-- The fatal error message shown when an audio restart fails. -/
def micFailMessage : String :=
  "Microphone stopped working and could not be restarted."

/-- The `catch`/`finally` tail of `restartMedia`: a failed audio
restart surfaces the fatal microphone error (a failed video restart
degrades silently), and the flag is cleared unconditionally. -/
def restartFinish (st : LocalMediaState) (kind : MediaKind) (ok : Bool) :
    LocalMediaState :=
  let st1 :=
    if !ok && kind == MediaKind.audio then
      { st with fatalError := some micFailMessage }
    else st
  { st1 with restartingMode := none }

/-- The whole `restartMedia(type)` call, with acquisition outcome
`ok`: guard, flag set, track work, finalisation. -/
def restartMedia (st : LocalMediaState) (kind : MediaKind) (ok : Bool) :
    LocalMediaState :=
  if st.restartingMode.isSome || !st.hasStream then st
  else restartFinish (restartWork (restartBegin st kind) kind ok) kind ok

/-! ## Speaker activity debounce (`checkAudioLevel`) -/

/-- `SPEAKING_THRESHOLD` in `page.tsx`. -/
def SPEAKING_THRESHOLD : Nat := 30

/-- `SPEAKING_DURATION_TO_REORDER` in `page.tsx` (milliseconds). -/
def SPEAKING_DURATION_TO_REORDER : Nat := 3000

/-- The per-peer debounce state: the entry in `speakingTimersRef`
(deadline of the pending `setTimeout`, and whether it has already
fired — a fired timer stays in the map until a below-threshold sample
deletes it), the peer's `speakingActivity` stamp, and a count of
stamps recorded. -/
structure SpeakState where
  timer : Option (Nat × Bool)
  lastSpeakingAt : Option Nat
  stampCount : Nat
  deriving Repr, DecidableEq

/-- The debounce state at effect start: no timer, no stamp. -/
def initSpeakState : SpeakState :=
  { timer := none, lastSpeakingAt := none, stampCount := 0 }

/-- Fire the pending 3-second timer if its deadline has been reached
by `now` and it has not fired yet: the timeout callback stamps
`speakingActivity` with the firing time (the deadline) but leaves the
timer entry in the map. -/
def fireDue (st : SpeakState) (now : Nat) : SpeakState :=
  match st.timer with
  | some (d, false) =>
      if d ≤ now then
        { timer := some (d, true), lastSpeakingAt := some d,
          stampCount := st.stampCount + 1 }
      else st
  | _ => st

/-- One `checkAudioLevel` tick at time `now` with average energy
`avg`; any timer whose deadline has passed fires first (timers fire
between animation frames). Above-threshold energy starts a 3-second
timer if none is in the map; at-or-below-threshold energy clears and
removes any timer. -/
def checkAudioLevel (st : SpeakState) (now avg : Nat) : SpeakState :=
  let st1 := fireDue st now
  if avg > SPEAKING_THRESHOLD then
    if st1.timer.isNone then
      { st1 with timer := some (now + SPEAKING_DURATION_TO_REORDER, false) }
    else st1
  else { st1 with timer := none }

/-- A run of `checkAudioLevel` ticks over a time-ordered list of
`(now, avg)` samples. -/
def runSpeak (st : SpeakState) (samples : List (Nat × Nat)) : SpeakState :=
  samples.foldl (fun s p => checkAudioLevel s p.1 p.2) st

/-! ## Presentation order (`sortedPeers`) -/

/-- The sort key of a peer: `speakingActivity.get(peerId) || 0`. -/
def activityKey (activity : List (String × Nat)) (p : PeerRef) : Nat :=
  (activity.lookup p.peerId).getD 0

/-- Stable descending insertion: `x` is placed before the first
element whose key does not exceed `x`'s — on key ties the earlier
original element (here `x`, which carries the smaller original index)
stays first, matching the ES2019 stable-sort guarantee for
`[...peers].sort((a, b) => bActivity - aActivity)`. -/
def insertDescBy (key : PeerRef → Nat) (x : Nat × PeerRef) :
    List (Nat × PeerRef) → List (Nat × PeerRef)
  | [] => [x]
  | y :: ys =>
    if key y.2 ≤ key x.2 then x :: y :: ys
    else y :: insertDescBy key x ys

/-- Stable descending insertion sort over index-tagged peers. -/
def sortPeersIdx (key : PeerRef → Nat) :
    List (Nat × PeerRef) → List (Nat × PeerRef)
  | [] => []
  | x :: xs => insertDescBy key x (sortPeersIdx key xs)

/-- The `sortedPeers` computation of the grid and of the overflow
sidebar: the peer list sorted by descending speaking activity,
missing stamps defaulting to `0`, equal keys kept in the existing
list order. -/
def sortedPeers (activity : List (String × Nat)) (peers : List PeerRef) :
    List PeerRef :=
  (sortPeersIdx (activityKey activity) peers.enum).map Prod.snd

/-! ## Theorems -/

/-- C2: a `join-room` request whose display name the whitelist rejects
yields exactly one `error` reply to the requesting socket, records no
`userNames` entry, joins no room, and broadcasts nothing: the server
state after the request equals the state before. -/
theorem joinRoom_rejected_pure_error (st : ServerState)
    (socketId roomId userId userName : String)
    (h : WHITELIST.contains userName = false) :
    joinRoom st socketId roomId userId userName =
      (st, [(Target.reply socketId, ServerMsg.errorMsg "User not whitelisted")]) := by
  have hm : userName ∉ WHITELIST := by simpa using h
  simp [joinRoom, hm]

/-- Witness for C2: the non-whitelisted name `"mallory"` is rejected
without any state change. -/
theorem joinRoom_rejected_pure_error_witness :
    WHITELIST.contains "mallory" = false ∧
    joinRoom ⟨[], []⟩ "sock1" "roomA" "user1" "mallory" =
      (⟨[], []⟩, [(Target.reply "sock1", ServerMsg.errorMsg "User not whitelisted")]) :=
  ⟨by decide,
   joinRoom_rejected_pure_error ⟨[], []⟩ "sock1" "roomA" "user1" "mallory" (by decide)⟩

/-- C10: the server relays `offer` and `answer` for a sender with no
`userNames` entry (never joined, or join rejected): the message is
still forwarded to the addressed session, stamped with the fallback
display name `"Participant"`, rather than rejected or dropped. -/
theorem relay_without_join_uses_participant (st : ServerState)
    (senderId toId : String) (offer answer : SignalData)
    (h : st.userNames.lookup senderId = none) :
    relayOffer st senderId offer toId =
      [(Target.toRoomExcept toId senderId,
        ServerMsg.offerMsg offer senderId "Participant")] ∧
    relayAnswer st senderId answer toId =
      [(Target.toRoomExcept toId senderId,
        ServerMsg.answerMsg answer senderId "Participant")] := by
  constructor <;> simp [relayOffer, relayAnswer, h]

/-- Witness for C10: a sender absent from an empty directory still has
its offer and answer forwarded, named `"Participant"`. -/
theorem relay_without_join_uses_participant_witness :
    (List.lookup "sock9" ([] : List (String × String)) = none) ∧
    (relayOffer ⟨[], []⟩ "sock9" ⟨none, some "v=offer"⟩ "sock2" =
      [(Target.toRoomExcept "sock2" "sock9",
        ServerMsg.offerMsg ⟨none, some "v=offer"⟩ "sock9" "Participant")] ∧
     relayAnswer ⟨[], []⟩ "sock9" ⟨none, some "v=offer"⟩ "sock2" =
      [(Target.toRoomExcept "sock2" "sock9",
        ServerMsg.answerMsg ⟨none, some "v=offer"⟩ "sock9" "Participant")]) :=
  ⟨rfl,
   relay_without_join_uses_participant ⟨[], []⟩ "sock9" "sock2"
     ⟨none, some "v=offer"⟩ ⟨none, some "v=offer"⟩ rfl⟩

/-- C3 counterexample: the outbound classification in the `signal`
handlers is made precisely by inspecting the payload shape — two
payloads presented to the same handler, differing only in whether a
`candidate` field is present, are classified into different variants,
refuting "this classification is never made by inspecting the shape
of the payload". -/
theorem signal_classification_shape_counterexample :
    (createPeerSignalHandler "peerB" ⟨some "cand:1", none⟩).isIce = true ∧
    (createPeerSignalHandler "peerB" ⟨none, some "v=0"⟩).isIce = false ∧
    (addPeerSignalHandler "peerB" ⟨some "cand:1", none⟩).isIce = true ∧
    (addPeerSignalHandler "peerB" ⟨none, some "v=0"⟩).isIce = false := by
  decide

/-- C3 amended: every outbound payload of a `signal` handler is
classified into exactly one of the three variants at the serialization
boundary, but the classification is made by inspecting the payload
shape: a payload with a `candidate` field is emitted as IceCandidate;
one without is emitted as Offer by the initiator-side handler and as
Answer by the responder-side handler (the initiator side never emits
an Answer, the responder side never emits an Offer). -/
theorem signal_classification_by_shape (toId : String) (s : SignalData) :
    ((createPeerSignalHandler toId s = OutboundMsg.iceCandidate s toId) ↔
      s.candidate.isSome = true) ∧
    ((createPeerSignalHandler toId s = OutboundMsg.offerOut s toId) ↔
      s.candidate.isSome = false) ∧
    (∀ a t, createPeerSignalHandler toId s ≠ OutboundMsg.answerOut a t) ∧
    ((addPeerSignalHandler toId s = OutboundMsg.iceCandidate s toId) ↔
      s.candidate.isSome = true) ∧
    ((addPeerSignalHandler toId s = OutboundMsg.answerOut s toId) ↔
      s.candidate.isSome = false) ∧
    (∀ a t, addPeerSignalHandler toId s ≠ OutboundMsg.offerOut a t) := by
  unfold createPeerSignalHandler addPeerSignalHandler
  cases h : s.candidate.isSome <;> simp [h]

/-- C5: the speaker debounce per peer link — remote energy above the
speaking threshold for 2.9 continuous seconds followed by a drop
records no stamp; energy above threshold from 0 through 3.1 seconds
records exactly one stamp, at +3.0 seconds, and continuing to speak
does not re-stamp; after a drop below threshold, a later speaking
burst stamps again. -/
theorem speaker_debounce_behaviour :
    runSpeak initSpeakState [(0, 100), (1000, 100), (2000, 100), (2900, 100), (2950, 5)] =
      { timer := none, lastSpeakingAt := none, stampCount := 0 } ∧
    runSpeak initSpeakState
        [(0, 100), (1000, 100), (2000, 100), (3100, 100), (4000, 100), (6500, 100)] =
      { timer := some (3000, true), lastSpeakingAt := some 3000, stampCount := 1 } ∧
    runSpeak initSpeakState
        [(0, 100), (1000, 100), (2000, 100), (3100, 100), (4000, 100), (6500, 100),
         (6600, 5), (7000, 100), (10100, 100)] =
      { timer := some (10000, true), lastSpeakingAt := some 10000, stampCount := 2 } := by
  decide

/-- C4 counterexample: synthetic energy held at zero for exactly 10.0
continuous seconds while unmuted (monitor ticks at 0 ms through
10000 ms, sound resuming at the next frame) triggers no audio restart
at all, because the code requires the elapsed silence to exceed
`SILENCE_DURATION` strictly — refuting "below the silence threshold
continuously for exactly 10.0 seconds → restart triggered exactly
once". -/
theorem silence_exactly_ten_seconds_counterexample :
    (runMonitor ⟨0, false, 0⟩ false
        [(0, 0), (2500, 0), (5000, 0), (7500, 0), (10000, 0), (10016, 100)]).restartCount
      = 0 := by
  decide

/-- C4 amended: while unmuted, a health-check tick that observes
below-threshold energy and strictly more than 10.0 seconds elapsed
since `silenceStart` triggers an audio restart exactly once and resets
the silence timestamp; no tick with at most 10.0 seconds elapsed
changes the restart count; the check is skipped entirely while a
restart is in flight (hence no re-trigger during the restart); and
completion of the restart re-measures the silence interval from the
completion time. -/
theorem silence_restart_strictly_after_ten (st : MonitorState) (now avg : Nat)
    (hr : st.restarting = false) (ha : avg < SILENCE_THRESHOLD)
    (hel : now - st.silenceStart > SILENCE_DURATION) :
    checkMediaHealthAudio st now avg false =
      { silenceStart := now, restarting := true,
        restartCount := st.restartCount + 1 } ∧
    (∀ st2 now2 avg2 m2, st2.restarting = true →
      checkMediaHealthAudio st2 now2 avg2 m2 = st2) ∧
    (∀ now2 avg2 m2,
      checkMediaHealthAudio (checkMediaHealthAudio st now avg false) now2 avg2 m2 =
        checkMediaHealthAudio st now avg false) ∧
    (∀ st3 now3 avg3, now3 - st3.silenceStart ≤ SILENCE_DURATION →
      (checkMediaHealthAudio st3 now3 avg3 false).restartCount = st3.restartCount) ∧
    (∀ tDone, restartComplete (checkMediaHealthAudio st now avg false) tDone =
      { silenceStart := tDone, restarting := false,
        restartCount := st.restartCount + 1 }) := by
  have hmain : checkMediaHealthAudio st now avg false =
      { silenceStart := now, restarting := true,
        restartCount := st.restartCount + 1 } := by
    simp [checkMediaHealthAudio, hr, ha, hel]
  have hskip : ∀ st2 now2 avg2 m2, st2.restarting = true →
      checkMediaHealthAudio st2 now2 avg2 m2 = st2 := by
    intro st2 now2 avg2 m2 h2
    simp [checkMediaHealthAudio, h2]
  refine ⟨hmain, hskip, ?_, ?_, ?_⟩
  · intro now2 avg2 m2
    rw [hmain]
    exact hskip _ now2 avg2 m2 rfl
  · intro st3 now3 avg3 h3
    unfold checkMediaHealthAudio
    split
    · rfl
    · split
      · rfl
      · split
        · split
          · omega
          · rfl
        · rfl
  · intro tDone
    rw [hmain]
    rfl

/-- Witness for C4 (amended): from a silence start at 0, a tick at
10001 ms with zero energy triggers the restart once and resets the
timestamp; completion at 12000 ms restarts the silence measurement
there. -/
theorem silence_restart_strictly_after_ten_witness :
    (0 : Nat) < SILENCE_THRESHOLD ∧ ((10001 : Nat) - 0 > SILENCE_DURATION) ∧
    (checkMediaHealthAudio ⟨0, false, 3⟩ 10001 0 false =
        { silenceStart := 10001, restarting := true, restartCount := 4 } ∧
      (∀ st2 now2 avg2 m2, st2.restarting = true →
        checkMediaHealthAudio st2 now2 avg2 m2 = st2) ∧
      (∀ now2 avg2 m2,
        checkMediaHealthAudio (checkMediaHealthAudio ⟨0, false, 3⟩ 10001 0 false)
            now2 avg2 m2 =
          checkMediaHealthAudio ⟨0, false, 3⟩ 10001 0 false) ∧
      (∀ st3 now3 avg3, now3 - st3.silenceStart ≤ SILENCE_DURATION →
        (checkMediaHealthAudio st3 now3 avg3 false).restartCount = st3.restartCount) ∧
      (∀ tDone, restartComplete (checkMediaHealthAudio ⟨0, false, 3⟩ 10001 0 false) tDone =
        { silenceStart := tDone, restarting := false, restartCount := 4 })) :=
  ⟨by decide, by decide,
   silence_restart_strictly_after_ten ⟨0, false, 3⟩ 10001 0 rfl (by decide) (by decide)⟩

/-- C6: at most one media restart is in flight per local session, for
both media kinds combined — `restartMedia` is a no-op whenever the
shared `restartingMode` flag is already set (by either kind); from an
idle state it sets the flag before any track work (the begin step
changes no track generation and makes no acquisition call); and the
flag is cleared when the restart completes or fails, a failed restart
being finalized after its single acquisition attempt rather than
retried. -/
theorem restart_single_flight (st stIdle : LocalMediaState)
    (k kBusy : MediaKind) (ok : Bool)
    (hbusy : st.restartingMode = some kBusy)
    (hidle : stIdle.restartingMode = none) (hstream : stIdle.hasStream = true) :
    restartMedia st k ok = st ∧
    (restartBegin stIdle k).restartingMode = some k ∧
    (restartBegin stIdle k).audioGen = stIdle.audioGen ∧
    (restartBegin stIdle k).videoGen = stIdle.videoGen ∧
    (restartBegin stIdle k).acquisitionCalls = stIdle.acquisitionCalls ∧
    (restartMedia stIdle k ok).restartingMode = none ∧
    (restartMedia stIdle k false).acquisitionCalls = stIdle.acquisitionCalls + 1 ∧
    (restartMedia stIdle k false).restartingMode = none := by
  refine ⟨?_, ?_, ?_, ?_, ?_, ?_, ?_, ?_⟩
  · simp [restartMedia, hbusy]
  all_goals
    cases ok <;> cases k <;>
      simp [restartMedia, restartBegin, restartWork, restartFinish,
            hidle, hstream]

/-- Witness for C6: with an audio restart in flight, a video restart
request is a no-op; from idle, a failed audio restart makes one
acquisition attempt and ends with the flag clear. -/
theorem restart_single_flight_witness :
    (LocalMediaState.restartingMode ⟨some MediaKind.audio, true, 0, 0, none, 0⟩ =
      some MediaKind.audio) ∧
    restartMedia ⟨some MediaKind.audio, true, 0, 0, none, 0⟩ MediaKind.video true =
      ⟨some MediaKind.audio, true, 0, 0, none, 0⟩ ∧
    (restartMedia ⟨none, true, 5, 7, none, 2⟩ MediaKind.audio false).acquisitionCalls = 3 ∧
    (restartMedia ⟨none, true, 5, 7, none, 2⟩ MediaKind.audio false).restartingMode = none :=
  ⟨rfl,
   (restart_single_flight ⟨some MediaKind.audio, true, 0, 0, none, 0⟩
      ⟨none, true, 5, 7, none, 2⟩ MediaKind.video MediaKind.audio true
      rfl rfl rfl).1,
   (restart_single_flight ⟨some MediaKind.audio, true, 0, 0, none, 0⟩
      ⟨none, true, 5, 7, none, 2⟩ MediaKind.audio MediaKind.audio false
      rfl rfl rfl).2.2.2.2.2.2.1,
   (restart_single_flight ⟨some MediaKind.audio, true, 0, 0, none, 0⟩
      ⟨none, true, 5, 7, none, 2⟩ MediaKind.audio MediaKind.audio false
      rfl rfl rfl).2.2.2.2.2.2.2⟩

/-- C1: from a peer set with no entry for remote id `r`, either
interleaving of a `user-connected` event and an `offer` event for `r`
creates exactly one peer link for `r`, and the second event is a
complete no-op — the peer set, including the already-created link, is
unchanged by it. -/
theorem peer_link_created_exactly_once (ps : List PeerRef) (r n : String)
    (offer : SignalData) (pn : Option String)
    (h : ps.countP (fun p => p.peerId == r) = 0) :
    handleOfferEvent (handleUserConnected ps r n) r offer pn =
      handleUserConnected ps r n ∧
    handleUserConnected (handleOfferEvent ps r offer pn) r n =
      handleOfferEvent ps r offer pn ∧
    (handleUserConnected ps r n).countP (fun p => p.peerId == r) = 1 ∧
    (handleOfferEvent ps r offer pn).countP (fun p => p.peerId == r) = 1 := by
  have hall : ∀ p ∈ ps, ¬ ((p.peerId == r) = true) := List.countP_eq_zero.mp h
  have hany : ps.any (fun p => p.peerId == r) = false := by
    simp only [List.any_eq_false]
    intro p hp
    simpa using hall p hp
  refine ⟨?_, ?_, ?_, ?_⟩
  · simp [handleUserConnected, handleOfferEvent, hany, List.any_append]
  · simp [handleUserConnected, handleOfferEvent, hany, List.any_append]
  · simp [handleUserConnected, hany, List.countP_append, h]
  · simp [handleOfferEvent, hany, List.countP_append, h]

/-- Witness for C1: in an empty peer set, a `user-connected` for
`"remoteA"` followed by an `offer` from `"remoteA"` yields exactly one
link for `"remoteA"`. -/
theorem peer_link_created_exactly_once_witness :
    ([] : List PeerRef).countP (fun p => p.peerId == "remoteA") = 0 ∧
    handleOfferEvent (handleUserConnected [] "remoteA" "alice") "remoteA"
        ⟨none, some "v=offer"⟩ (some "alice") =
      handleUserConnected [] "remoteA" "alice" ∧
    (handleUserConnected [] "remoteA" "alice").countP
        (fun p => p.peerId == "remoteA") = 1 :=
  ⟨rfl,
   (peer_link_created_exactly_once [] "remoteA" "alice" ⟨none, some "v=offer"⟩
      (some "alice") rfl).1,
   (peer_link_created_exactly_once [] "remoteA" "alice" ⟨none, some "v=offer"⟩
      (some "alice") rfl).2.2.1⟩

/-- C7: a `peer-state-changed` event for session `x` rewrites the peer
set so that entries whose `peerId` equals `x` get exactly their
`muted`/`videoOff` fields replaced — `peerId`, `peer` instance,
`userName` and `stream` are carried over unchanged — and every entry
whose `peerId` differs from `x` is kept identical (in particular it
remains a member of the resulting peer set). -/
theorem peer_state_changed_updates_only_flags (ps : List PeerRef) (x : String)
    (m v : Bool) :
    handlePeerStateChanged ps x m v =
      ps.map (fun p =>
        if p.peerId == x then
          { peerId := p.peerId, peer := p.peer, userName := p.userName,
            stream := p.stream, muted := some m, videoOff := some v }
        else p) ∧
    ∀ p ∈ ps, p.peerId ≠ x → p ∈ handlePeerStateChanged ps x m v := by
  have hmain : handlePeerStateChanged ps x m v =
      ps.map (fun p =>
        if p.peerId == x then
          { peerId := p.peerId, peer := p.peer, userName := p.userName,
            stream := p.stream, muted := some m, videoOff := some v }
        else p) := by
    unfold handlePeerStateChanged
    split
    · rfl
    · next hany =>
      have hall : ∀ p ∈ ps, (p.peerId == x) = false := by
        intro p hp
        have h2 : ∀ q ∈ ps, ¬ q.peerId = x := by simpa using hany
        simpa using h2 p hp
      rw [List.map_congr_left (g := id) (fun p hp => by simp [hall p hp])]
      simp
  refine ⟨hmain, ?_⟩
  intro p hp hne
  rw [hmain]
  have hbe : (p.peerId == x) = false := by simpa using hne
  have : p = (fun p : PeerRef =>
      if p.peerId == x then
        { peerId := p.peerId, peer := p.peer, userName := p.userName,
          stream := p.stream, muted := some m, videoOff := some v }
      else p) p := by simp [hbe]
  rw [this]
  exact List.mem_map_of_mem _ hp

/-- Helper: when no peer entry matches, `handleIceCandidate` returns
the peer set unchanged. -/
theorem handleIceCandidate_no_match (ps : List PeerRef) (frm : String)
    (c : SignalData) (h : ∀ p ∈ ps, p.peerId ≠ frm) :
    handleIceCandidate ps frm c = ps := by
  induction ps with
  | nil => rfl
  | cons p rest ih =>
    have hp : (p.peerId == frm) = false := by
      simpa using h p (List.mem_cons_self p rest)
    simp only [handleIceCandidate, hp, if_neg Bool.false_ne_true, List.cons.injEq,
      true_and]
    exact ih (fun q hq => h q (List.mem_cons_of_mem p hq))

/-- Helper: when the first matching peer entry is `p`, only `p`'s peer
instance receives the candidate. -/
theorem handleIceCandidate_found (frm : String) (c : SignalData)
    (pre : List PeerRef) (p : PeerRef) (post : List PeerRef)
    (hpre : ∀ q ∈ pre, q.peerId ≠ frm) (hp : p.peerId = frm) :
    handleIceCandidate (pre ++ p :: post) frm c =
      pre ++ { p with peer :=
        { p.peer with signals := p.peer.signals ++ [c] } } :: post := by
  induction pre with
  | nil => simp [handleIceCandidate, hp]
  | cons q rest ih =>
    have hq : (q.peerId == frm) = false := by
      simpa using hpre q (List.mem_cons_self q rest)
    simp only [List.cons_append, handleIceCandidate, hq,
      if_neg Bool.false_ne_true, List.cons.injEq, true_and]
    exact ih (fun q2 hq2 => hpre q2 (List.mem_cons_of_mem q hq2))

/-- C8: an `ice-candidate` event for a remote id with an existing peer
link feeds the candidate to exactly that link's peer instance, leaving
every other entry untouched; when no peer link exists for that id the
candidate is dropped silently — no link is created and the peer set is
returned unchanged. -/
theorem ice_candidate_routed_or_dropped (ps : List PeerRef) (frm : String)
    (c : SignalData) :
    ((∀ p ∈ ps, p.peerId ≠ frm) → handleIceCandidate ps frm c = ps) ∧
    (∀ pre p post, ps = pre ++ p :: post → (∀ q ∈ pre, q.peerId ≠ frm) →
      p.peerId = frm →
      handleIceCandidate ps frm c =
        pre ++ { p with peer :=
          { p.peer with signals := p.peer.signals ++ [c] } } :: post) := by
  refine ⟨handleIceCandidate_no_match ps frm c, ?_⟩
  intro pre p post hps hpre hp
  subst hps
  exact handleIceCandidate_found frm c pre p post hpre hp

/-- Witness for C8: a candidate from an unknown id leaves a singleton
peer set unchanged; a candidate from a known id is appended to that
peer's signal list while the other entry is untouched. -/
theorem ice_candidate_routed_or_dropped_witness :
    (∀ p ∈ ([⟨"idA", ⟨true, []⟩, some "alice", none, none, none⟩] : List PeerRef),
      p.peerId ≠ "idZ") ∧
    handleIceCandidate [⟨"idA", ⟨true, []⟩, some "alice", none, none, none⟩]
        "idZ" ⟨some "cand:9", none⟩ =
      [⟨"idA", ⟨true, []⟩, some "alice", none, none, none⟩] ∧
    handleIceCandidate
        [⟨"idA", ⟨true, []⟩, some "alice", none, none, none⟩,
         ⟨"idB", ⟨false, [⟨none, some "v=offer"⟩]⟩, some "bob", none, none, none⟩]
        "idB" ⟨some "cand:9", none⟩ =
      [⟨"idA", ⟨true, []⟩, some "alice", none, none, none⟩,
       ⟨"idB", ⟨false, [⟨none, some "v=offer"⟩, ⟨some "cand:9", none⟩]⟩,
        some "bob", none, none, none⟩] :=
  ⟨by decide,
   (ice_candidate_routed_or_dropped
      [⟨"idA", ⟨true, []⟩, some "alice", none, none, none⟩] "idZ"
      ⟨some "cand:9", none⟩).1 (by decide),
   (ice_candidate_routed_or_dropped
      [⟨"idA", ⟨true, []⟩, some "alice", none, none, none⟩,
       ⟨"idB", ⟨false, [⟨none, some "v=offer"⟩]⟩, some "bob", none, none, none⟩]
      "idB" ⟨some "cand:9", none⟩).2
      [⟨"idA", ⟨true, []⟩, some "alice", none, none, none⟩]
      ⟨"idB", ⟨false, [⟨none, some "v=offer"⟩]⟩, some "bob", none, none, none⟩
      [] rfl (by decide) rfl⟩

/-- The presentation order on index-tagged peers: strictly larger
activity key first, key ties resolved by the original position. -/
def presOrder (key : PeerRef → Nat) (a b : Nat × PeerRef) : Prop :=
  key b.2 < key a.2 ∨ (key a.2 = key b.2 ∧ a.1 < b.1)

/-- Helper: membership across stable descending insertion. -/
theorem mem_insertDescBy (key : PeerRef → Nat) (x y : Nat × PeerRef)
    (l : List (Nat × PeerRef)) :
    y ∈ insertDescBy key x l ↔ y = x ∨ y ∈ l := by
  induction l with
  | nil => simp [insertDescBy]
  | cons z zs ih =>
    by_cases hz : key z.2 ≤ key x.2
    · simp [insertDescBy, hz]
    · simp [insertDescBy, hz, ih]
      tauto

/-- Helper: stable descending insertion is a permutation-cons. -/
theorem perm_insertDescBy (key : PeerRef → Nat) (x : Nat × PeerRef)
    (l : List (Nat × PeerRef)) :
    List.Perm (insertDescBy key x l) (x :: l) := by
  induction l with
  | nil => exact List.Perm.refl _
  | cons z zs ih =>
    by_cases hz : key z.2 ≤ key x.2
    · simp [insertDescBy, hz]
    · simp only [insertDescBy, if_neg hz]
      exact List.Perm.trans (ih.cons z) (List.Perm.swap x z zs)

/-- Helper: the singleton-insert step keeps the list pairwise-sorted in
the presentation order, provided the inserted element carries a
strictly smaller original index than everything already present. -/
theorem pairwise_insertDescBy (key : PeerRef → Nat) (x : Nat × PeerRef)
    (l : List (Nat × PeerRef)) (hl : l.Pairwise (presOrder key))
    (hx : ∀ y ∈ l, x.1 < y.1) :
    (insertDescBy key x l).Pairwise (presOrder key) := by
  induction l with
  | nil => simp [insertDescBy, presOrder]
  | cons z zs ih =>
    rcases List.pairwise_cons.mp hl with ⟨hz, hzs⟩
    by_cases hle : key z.2 ≤ key x.2
    · rw [insertDescBy, if_pos hle]
      refine List.pairwise_cons.mpr ⟨?_, hl⟩
      intro w hw
      rcases List.mem_cons.mp hw with hwz | hwzs
      · subst hwz
        rcases Nat.lt_or_ge (key w.2) (key x.2) with hlt | hge
        · exact Or.inl hlt
        · exact Or.inr ⟨Nat.le_antisymm hge hle, hx w (List.mem_cons_self w zs)⟩
      · rcases hz w hwzs with hlt | ⟨heq, _⟩
        · exact Or.inl (Nat.lt_of_lt_of_le hlt hle)
        · rcases Nat.lt_or_ge (key w.2) (key x.2) with hlt2 | hge2
          · exact Or.inl hlt2
          · have : key w.2 = key x.2 :=
              Nat.le_antisymm (heq ▸ hle) hge2
            exact Or.inr ⟨this.symm, hx w (List.mem_cons_of_mem z hwzs)⟩
    · rw [insertDescBy, if_neg hle]
      refine List.pairwise_cons.mpr ⟨?_, ?_⟩
      · intro w hw
        rcases (mem_insertDescBy key x w zs).mp hw with hwx | hwzs
        · subst hwx
          exact Or.inl (Nat.lt_of_not_le hle)
        · exact hz w hwzs
      · exact ih hzs (fun y hy => hx y (List.mem_cons_of_mem z hy))

/-- Helper: the stable descending sort permutes its input. -/
theorem perm_sortPeersIdx (key : PeerRef → Nat) (l : List (Nat × PeerRef)) :
    List.Perm (sortPeersIdx key l) l := by
  induction l with
  | nil => exact List.Perm.refl _
  | cons x xs ih =>
    exact List.Perm.trans (perm_insertDescBy key x (sortPeersIdx key xs)) (ih.cons x)

/-- Helper: on an input whose original indices strictly increase, the
stable descending sort produces a list that is pairwise in the
presentation order. -/
theorem pairwise_sortPeersIdx (key : PeerRef → Nat) (l : List (Nat × PeerRef))
    (hl : l.Pairwise (fun a b => a.1 < b.1)) :
    (sortPeersIdx key l).Pairwise (presOrder key) := by
  induction l with
  | nil => simp [sortPeersIdx]
  | cons x xs ih =>
    rcases List.pairwise_cons.mp hl with ⟨hx, hxs⟩
    refine pairwise_insertDescBy key x (sortPeersIdx key xs) (ih hxs) ?_
    intro y hy
    exact hx y ((perm_sortPeersIdx key xs).mem_iff.mp hy)

/-- Helper: the indices of `enumFrom` are bounded below by its start. -/
theorem le_fst_of_mem_enumFrom (l : List PeerRef) (n : Nat) (y : Nat × PeerRef)
    (hy : y ∈ l.enumFrom n) : n ≤ y.1 := by
  induction l generalizing n with
  | nil => cases hy
  | cons p rest ih =>
    rcases List.mem_cons.mp hy with h | h
    · subst h; exact Nat.le_refl n
    · exact Nat.le_of_lt (Nat.lt_of_lt_of_le (Nat.lt_succ_self n) (ih (n + 1) h))

/-- Helper: the indices assigned by `enumFrom` strictly increase. -/
theorem pairwise_fst_enumFrom (l : List PeerRef) (n : Nat) :
    (l.enumFrom n).Pairwise (fun a b => a.1 < b.1) := by
  induction l generalizing n with
  | nil => simp
  | cons p rest ih =>
    refine List.pairwise_cons.mpr ⟨?_, ih (n + 1)⟩
    intro y hy
    exact Nat.lt_of_lt_of_le (Nat.lt_succ_self n) (le_fst_of_mem_enumFrom rest (n + 1) y hy)

/-- C9: the presentation order of peers is a total order — `sortedPeers`
permutes the peer list; along the result the activity keys (missing
stamps defaulting to 0, hence after every positive stamp) are
non-increasing; and on the index-tagged run every adjacent-or-later
pair is strictly ordered: either strictly larger key first, or equal
keys in original list order (stability, unstamped entries included). -/
theorem presentation_order_total (activity : List (String × Nat))
    (peers : List PeerRef) :
    List.Perm (sortedPeers activity peers) peers ∧
    (sortedPeers activity peers).Pairwise
      (fun a b => activityKey activity b ≤ activityKey activity a) ∧
    (sortPeersIdx (activityKey activity) peers.enum).Pairwise
      (presOrder (activityKey activity)) := by
  have hpw : (sortPeersIdx (activityKey activity) peers.enum).Pairwise
      (presOrder (activityKey activity)) := by
    refine pairwise_sortPeersIdx (activityKey activity) peers.enum ?_
    rw [List.enum_eq_enumFrom]
    exact pairwise_fst_enumFrom peers 0
  refine ⟨?_, ?_, hpw⟩
  · have h1 : List.Perm (sortPeersIdx (activityKey activity) peers.enum)
        peers.enum := perm_sortPeersIdx (activityKey activity) peers.enum
    have h2 := h1.map Prod.snd
    rw [List.enum_map_snd] at h2
    exact h2
  · unfold sortedPeers
    rw [List.pairwise_map]
    refine hpw.imp ?_
    intro a b hab
    rcases hab with hlt | ⟨heq, _⟩
    · exact Nat.le_of_lt hlt
    · exact Nat.le_of_eq heq.symm
